import Mathlib

/-!
Verification of the rock-paper-scissors-go repository.

The Go code is shallowly embedded:
* a Go string, when ranged over (as in `Encrypt`/`Decrypt`), is a list of
  runes, modelled as `List Nat` of Unicode scalar values;
* the byte-level view of a string (as used by `ReceiveMessage`, which slices
  with `msg[:1]`, `msg[len(msg)-1:]`) is its UTF-8 encoding, `utf8Str`;
* fallible operations return `Except`/`Option`.
-/

namespace RPS

/-- Go `utf8.ValidRune`: a scalar value outside the surrogate range and at
most `0x10FFFF`. (Go runes are `int32`; negatives are handled at use sites,
since `Nat` cannot represent them.) -/
def validRune (r : Nat) : Bool :=
  (r < 0xD800 || (0xDFFF < r && r ≤ 0x10FFFF))

/-- Go `strings.Builder.WriteRune`: writes the rune itself when valid,
`U+FFFD` (RuneError) otherwise. Rune-level view. -/
def goWriteRune (r : Nat) : Nat :=
  if validRune r then r else 0xFFFD

/-- `Encrypt` from internal/rps/library.go: shifts each character of the
message by `+3` positions (via `WriteRune`, hence with the RuneError
fallback for invalid results). -/
def Encrypt (msg : List Nat) : List Nat :=
  msg.map (fun char => goWriteRune (char + 3))

/-- `Decrypt` from internal/rps/library.go: shifts each character by `-3`.
In Go the subtraction happens on `rune` (= `int32`), so a character below 3
yields a negative rune, which `WriteRune` turns into `U+FFFD`. -/
def Decrypt (msg : List Nat) : List Nat :=
  msg.map (fun char => if char < 3 then 0xFFFD else goWriteRune (char - 3))

/-- UTF-8 encoding of one scalar value (Go `utf8.EncodeRune` on valid input). -/
def utf8Encode (c : Nat) : List Nat :=
  if c < 0x80 then [c]
  else if c < 0x800 then [0xC0 + c / 64, 0x80 + c % 64]
  else if c < 0x10000 then
    [0xE0 + c / 4096, 0x80 + (c / 64) % 64, 0x80 + c % 64]
  else
    [0xF0 + c / 0x40000, 0x80 + (c / 4096) % 64, 0x80 + (c / 64) % 64,
     0x80 + c % 64]

/-- Byte view of a Go string given as a rune list: concatenated UTF-8. -/
def utf8Str : List Nat → List Nat
  | [] => []
  | r :: rs => utf8Encode r ++ utf8Str rs

theorem utf8Str_append (a b : List Nat) :
    utf8Str (a ++ b) = utf8Str a ++ utf8Str b := by
  induction a with
  | nil => simp [utf8Str]
  | cons r rs ih => simp [utf8Str, ih]

/-- Go `unicode.IsSpace`: the White_Space code points. -/
def goIsSpace (c : Nat) : Bool :=
  [9, 10, 11, 12, 13, 32, 0x85, 0xA0, 0x1680, 0x2028, 0x2029,
   0x202F, 0x205F, 0x3000].contains c || (0x2000 ≤ c && c ≤ 0x200A)

/-- Go `strings.TrimSpace`, rune-level: drop whitespace runes from both
ends. On valid UTF-8 this agrees with Go's byte-level implementation. -/
def goTrimSpace (l : List Nat) : List Nat :=
  ((l.dropWhile goIsSpace).reverse.dropWhile goIsSpace).reverse

/-- A UTF-8 continuation byte, `0x80..0xBF`. -/
def contByte (b : Nat) : Bool := 0x80 ≤ b && b ≤ 0xBF

/-- Accepted range of the second byte of a multi-byte sequence, per Go's
`utf8.acceptRanges` (rejects overlong encodings and surrogates). -/
def secondByteOK (b0 b1 : Nat) : Bool :=
  if b0 = 0xE0 then 0xA0 ≤ b1 && b1 ≤ 0xBF
  else if b0 = 0xED then 0x80 ≤ b1 && b1 ≤ 0x9F
  else if b0 = 0xF0 then 0x90 ≤ b1 && b1 ≤ 0xBF
  else if b0 = 0xF4 then 0x80 ≤ b1 && b1 ≤ 0x8F
  else contByte b1

/-- Decoding a byte string to runes, as Go's `range` over a string does:
each invalid or truncated sequence contributes one `U+FFFD` and consumes a
single byte. Fuel-based so that the definition unfolds by reduction; the
fuel is always instantiated with the list length. -/
def utf8DecodeAux : Nat → List Nat → List Nat
  | 0, _ => []
  | _ + 1, [] => []
  | fuel + 1, b0 :: rest =>
    if b0 < 0x80 then b0 :: utf8DecodeAux fuel rest
    else if b0 < 0xC2 || 0xF4 < b0 then 0xFFFD :: utf8DecodeAux fuel rest
    else if b0 ≤ 0xDF then
      match rest with
      | b1 :: r1 =>
        if contByte b1 then
          ((b0 - 0xC0) * 0x40 + (b1 - 0x80)) :: utf8DecodeAux fuel r1
        else 0xFFFD :: utf8DecodeAux fuel rest
      | [] => 0xFFFD :: utf8DecodeAux fuel rest
    else if b0 ≤ 0xEF then
      match rest with
      | b1 :: b2 :: r2 =>
        if secondByteOK b0 b1 && contByte b2 then
          ((b0 - 0xE0) * 0x1000 + (b1 - 0x80) * 0x40 + (b2 - 0x80)) ::
            utf8DecodeAux fuel r2
        else 0xFFFD :: utf8DecodeAux fuel rest
      | _ => 0xFFFD :: utf8DecodeAux fuel rest
    else
      match rest with
      | b1 :: b2 :: b3 :: r3 =>
        if secondByteOK b0 b1 && contByte b2 && contByte b3 then
          ((b0 - 0xF0) * 0x40000 + (b1 - 0x80) * 0x1000 +
            (b2 - 0x80) * 0x40 + (b3 - 0x80)) :: utf8DecodeAux fuel r3
        else 0xFFFD :: utf8DecodeAux fuel rest
      | _ => 0xFFFD :: utf8DecodeAux fuel rest

/-- Runes obtained by ranging over a Go string given as bytes. -/
def utf8Decode (bytes : List Nat) : List Nat :=
  utf8DecodeAux bytes.length bytes

/-- Errors `ReceiveMessage` can return (besides transport read errors,
which are outside the embedding): the `errors.New` too-short error,
`InvalidHeaderError` and `InvalidFooterError`, each carrying the received
byte slice. -/
inductive RecvError where
  | tooShort
  | invalidHeader (received : List Nat)
  | invalidFooter (received : List Nat)
deriving DecidableEq

/-- The rune `⚠` (U+26A0), the header written by `SendMessage`. -/
def headerRune : Nat := 0x26A0

/-- The rune `☠` (U+2620), the footer written by `SendMessage`. -/
def footerRune : Nat := 0x2620

/-- UTF-8 bytes of the Go string literal `"⚠"` (`⚠`). -/
def headerBytes : List Nat := [0xE2, 0x9A, 0xA0]

/-- UTF-8 bytes of the Go string literal `"☠"` (`☠`). -/
def footerBytes : List Nat := [0xE2, 0x98, 0xA0]

/-- `SendMessage` from internal/rps/library.go, as the rune sequence of the
full line it writes: `fmt.Sprintf("%s%s%s\n", header, Encrypt(msg), footer)`.
The transport write itself (bufio writer and its error paths) is outside
the embedding; the message content is what the claims are about. -/
def SendMessage (msg : List Nat) : List Nat :=
  [headerRune] ++ Encrypt msg ++ [footerRune] ++ [10]

/-- The bytes `SendMessage` puts on the connection. -/
def sendMessageBytes (msg : List Nat) : List Nat :=
  utf8Str (SendMessage msg)

/-- The validation part of `ReceiveMessage` from internal/rps/library.go,
on the bytes `b` of the trimmed line. Go indexes the string by BYTES:
`len(msg)`, `msg[:1]`, `msg[len(msg)-1:]` and `msg[1:len(msg)-1]` all act
on the UTF-8 encoding. The header/footer comparisons are against the
3-byte strings `"⚠"` / `"☠"`. -/
def receiveTrimmed (b : List Nat) : Except RecvError (List Nat) :=
  if b.length < 2 then .error .tooShort
  else if b.take 1 ≠ headerBytes then .error (.invalidHeader (b.take 1))
  else if b.drop (b.length - 1) ≠ footerBytes then
    .error (.invalidFooter (b.drop (b.length - 1)))
  else .ok (Decrypt (utf8Decode ((b.drop 1).take (b.length - 2))))

/-- `ReceiveMessage` from internal/rps/library.go, applied to the line read
by `ReadString('\n')` (given as runes; the read itself and its transport
errors are outside the embedding): `strings.TrimSpace`, then the
byte-level checks of `receiveTrimmed` on the trimmed string's bytes. -/
def ReceiveMessage (line : List Nat) : Except RecvError (List Nat) :=
  receiveTrimmed (utf8Str (goTrimSpace line))

/-! ### Helper lemmas about whitespace trimming -/

theorem dropWhile_append_left_all {p : Nat → Bool} {l1 l2 : List Nat}
    (h : ∀ a ∈ l1, p a = true) :
    (l1 ++ l2).dropWhile p = l2.dropWhile p := by
  rw [List.dropWhile_append, List.dropWhile_eq_nil_iff.2 h]
  simp

theorem goTrimSpace_append (ws1 core ws2 : List Nat)
    (h1 : ∀ a ∈ ws1, goIsSpace a = true) (h2 : ∀ a ∈ ws2, goIsSpace a = true) :
    goTrimSpace (ws1 ++ core ++ ws2) = goTrimSpace core := by
  unfold goTrimSpace
  rw [List.append_assoc, dropWhile_append_left_all h1]
  by_cases h : core.dropWhile goIsSpace = []
  · have hcore : ∀ a ∈ core, goIsSpace a = true := List.dropWhile_eq_nil_iff.1 h
    rw [dropWhile_append_left_all hcore, List.dropWhile_eq_nil_iff.2 h2, h]
  · have hne : ¬ ((core.dropWhile goIsSpace).isEmpty = true) := by
      simpa [List.isEmpty_iff] using h
    rw [List.dropWhile_append, if_neg hne, List.reverse_append,
      dropWhile_append_left_all (fun a ha => h2 a (List.mem_reverse.1 ha))]

/-- What `strings.TrimSpace` leaves of the line `SendMessage` produces: the
trailing newline goes, the markers and the shifted payload stay. -/
theorem goTrimSpace_sendMessage (msg : List Nat) :
    goTrimSpace (SendMessage msg) =
      [headerRune] ++ Encrypt msg ++ [footerRune] := by
  have hnl : ∀ a ∈ [10], goIsSpace a = true := by
    intro a ha
    rw [List.mem_singleton] at ha
    subst ha
    decide
  have hsm : SendMessage msg =
      [] ++ ([headerRune] ++ Encrypt msg ++ [footerRune]) ++ [10] := by
    simp [SendMessage]
  rw [hsm, goTrimSpace_append [] _ [10] (by simp) hnl]
  unfold goTrimSpace
  rw [show [headerRune] ++ Encrypt msg ++ [footerRune] =
      headerRune :: (Encrypt msg ++ [footerRune]) by simp]
  rw [List.dropWhile_cons, if_neg (by decide)]
  rw [List.reverse_cons,
    show (Encrypt msg ++ [footerRune]).reverse =
      footerRune :: (Encrypt msg).reverse by simp]
  rw [List.cons_append, List.dropWhile_cons, if_neg (by decide)]
  simp

/-! ### Claim theorems about the codec -/

/-- C4: for every string whose characters all have a valid code point after
a `+3` shift, `Decrypt (Encrypt s) = s`: the per-character shift applied by
`Encrypt` is reversed exactly by `Decrypt`. -/
theorem Decrypt_Encrypt_id (s : List Nat)
    (h : ∀ r ∈ s, validRune r = true ∧ validRune (r + 3) = true) :
    Decrypt (Encrypt s) = s := by
  induction s with
  | nil => rfl
  | cons a t ih =>
    obtain ⟨ha1, ha2⟩ := h a (by simp)
    have hlt : ¬ a + 3 < 3 := by omega
    simp only [Encrypt, Decrypt, List.map_cons] at *
    congr 1
    · simp [goWriteRune, ha2, ha1, hlt]
    · exact ih fun r hr => h r (by simp [hr])

/-- Closed witness for `Decrypt_Encrypt_id` at the payload `"abc"`. -/
theorem Decrypt_Encrypt_id_witness :
    (∀ r ∈ [97, 98, 99], validRune r = true ∧ validRune (r + 3) = true) ∧
      Decrypt (Encrypt [97, 98, 99]) = [97, 98, 99] :=
  ⟨by decide, Decrypt_Encrypt_id [97, 98, 99] (by decide)⟩

/-- C5: for every payload whose characters remain valid after the `+3`
shift, the bytes `SendMessage` writes to the connection are exactly the
frame `⚠<payload shifted by 3>☠` followed by a newline. -/
theorem SendMessage_wire_format (msg : List Nat)
    (h : ∀ r ∈ msg, validRune (r + 3) = true) :
    sendMessageBytes msg =
      utf8Str ([headerRune] ++ msg.map (fun r => r + 3) ++
        [footerRune] ++ [10]) := by
  unfold sendMessageBytes SendMessage Encrypt
  have hmap : msg.map (fun char => goWriteRune (char + 3)) =
      msg.map (fun r => r + 3) := by
    induction msg with
    | nil => rfl
    | cons a t ih =>
      simp only [List.map_cons]
      refine congrArg₂ _ ?_ (ih fun r hr => h r (by simp [hr]))
      simp [goWriteRune, h a (by simp)]
  rw [hmap]

/-- Closed witness for `SendMessage_wire_format` at the payload `"hi"`. -/
theorem SendMessage_wire_format_witness :
    (∀ r ∈ [104, 105], validRune (r + 3) = true) ∧
      sendMessageBytes [104, 105] =
        utf8Str ([headerRune] ++ [104, 105].map (fun r => r + 3) ++
          [footerRune] ++ [10]) :=
  ⟨by decide, SendMessage_wire_format [104, 105] (by decide)⟩

/-- C1 (code bug): decoding the exact frame `SendMessage` writes never
returns the payload — for every payload it fails with `InvalidHeaderError`
carrying the single byte `0xE2`, because `ReceiveMessage` compares the
one-byte slice `msg[:1]` against the three-byte string `"⚠"`. -/
theorem ReceiveMessage_SendMessage_header_error (msg : List Nat) :
    ReceiveMessage (SendMessage msg) =
      .error (.invalidHeader [0xE2]) := by
  unfold ReceiveMessage
  rw [goTrimSpace_sendMessage, utf8Str_append, utf8Str_append]
  have h1 : utf8Str [headerRune] = [0xE2, 0x9A, 0xA0] := by decide
  have h2 : utf8Str [footerRune] = [0xE2, 0x98, 0xA0] := by decide
  rw [h1, h2]
  unfold receiveTrimmed
  simp only [List.cons_append, List.nil_append]
  rw [if_neg (by simp [List.length_cons])]
  rw [show (0xE2 :: 0x9A :: 0xA0 ::
      (utf8Str (Encrypt msg) ++ [0xE2, 0x98, 0xA0])).take 1 = [0xE2] by simp]
  rw [if_pos (by decide : ([0xE2] : List Nat) ≠ headerBytes)]

/-- C10: `ReceiveMessage` strips all leading and trailing whitespace from
the received line before any length or marker validation, so surrounding
whitespace never changes the result: lines that differ only in surrounding
whitespace produce the identical result or error. -/
theorem ReceiveMessage_whitespace_invariant (ws1 core ws2 : List Nat)
    (h1 : ∀ a ∈ ws1, goIsSpace a = true)
    (h2 : ∀ a ∈ ws2, goIsSpace a = true) :
    ReceiveMessage (ws1 ++ core ++ ws2) = ReceiveMessage core := by
  unfold ReceiveMessage
  rw [goTrimSpace_append ws1 core ws2 h1 h2]

/-- Closed witness for `ReceiveMessage_whitespace_invariant`: a space
before the frame and a tab-newline after it change nothing. -/
theorem ReceiveMessage_whitespace_invariant_witness :
    (∀ a ∈ [32], goIsSpace a = true) ∧
      (∀ a ∈ [9, 10], goIsSpace a = true) ∧
      ReceiveMessage ([32] ++ [0x26A0, 100, 0x2620] ++ [9, 10]) =
        ReceiveMessage [0x26A0, 100, 0x2620] :=
  ⟨by decide, by decide,
    ReceiveMessage_whitespace_invariant [32] [0x26A0, 100, 0x2620] [9, 10]
      (by decide) (by decide)⟩

/-- C3 (code bug): the claim classifies the one-character line `"☠\n"` as
too short and says a line whose first character is `⚠` (here `"⚠a☠\n"`)
never fails the header check; the code returns `InvalidHeaderError` with
the single byte `0xE2` in both cases, because it measures the length and
slices header/footer in BYTES while each marker is a 3-byte UTF-8
sequence. -/
theorem ReceiveMessage_marker_checks_bytewise :
    ReceiveMessage [0x2620, 10] = .error (.invalidHeader [0xE2]) ∧
      ReceiveMessage [0x26A0, 97, 0x2620, 10] =
        .error (.invalidHeader [0xE2]) :=
  ⟨rfl, rfl⟩

/-! ### The round outcome function -/

/-- `determineOutcome` from internal/rps/library.go. The Go `switch` on
`p1Choice` has no `default` case, so both outcome variables keep their
zero value for an unrecognised first choice. -/
def determineOutcome (p1Choice p2Choice : String) : Int × Int :=
  if p1Choice = p2Choice then (0, 0)
  else if p1Choice = "rock" then
    if p2Choice = "scissors" then (1, -1) else (-1, 1)
  else if p1Choice = "paper" then
    if p2Choice = "rock" then (1, -1) else (-1, 1)
  else if p1Choice = "scissors" then
    if p2Choice = "paper" then (1, -1) else (-1, 1)
  else (0, 0)

/-- The spec's cyclic rule, stated independently of the code: rock beats
scissors, scissors beats paper, paper beats rock. -/
def beats (a b : String) : Prop :=
  (a = "rock" ∧ b = "scissors") ∨ (a = "scissors" ∧ b = "paper") ∨
    (a = "paper" ∧ b = "rock")

instance (a b : String) : Decidable (beats a b) := by
  unfold beats
  infer_instance

/-- C2: over the three valid choices, `determineOutcome` follows the
cyclic rule with winner `+1` and loser `-1`, returns `(0, 0)` on equal
choices, and is antisymmetric on distinct choices. -/
theorem determineOutcome_cyclic (a b : String)
    (ha : a = "rock" ∨ a = "paper" ∨ a = "scissors")
    (hb : b = "rock" ∨ b = "paper" ∨ b = "scissors") :
    (a = b → determineOutcome a b = (0, 0)) ∧
    (beats a b → determineOutcome a b = (1, -1)) ∧
    (beats b a → determineOutcome a b = (-1, 1)) ∧
    (a ≠ b →
      (determineOutcome a b).2 = -(determineOutcome a b).1 ∧
      determineOutcome b a =
        ((determineOutcome a b).2, (determineOutcome a b).1)) := by
  rcases ha with ha | ha | ha <;> rcases hb with hb | hb | hb <;>
    subst ha <;> subst hb <;> decide

/-- Closed witness for `determineOutcome_cyclic`: rock beats scissors. -/
theorem determineOutcome_cyclic_witness :
    determineOutcome "rock" "scissors" = (1, -1) :=
  (determineOutcome_cyclic "rock" "scissors" (Or.inl rfl)
    (Or.inr (Or.inr rfl))).2.1 (Or.inl ⟨rfl, rfl⟩)

/-- C9: `determineOutcome` is total over arbitrary strings; equal strings
and unrecognised first arguments yield `(0, 0)`, while a valid first
argument against any distinct second argument other than the choice it
beats loses `(-1, 1)` — asymmetric behaviour outside the enumeration. -/
theorem determineOutcome_junk_input (a b : String) :
    (a = b → determineOutcome a b = (0, 0)) ∧
    (¬(a = "rock" ∨ a = "paper" ∨ a = "scissors") → a ≠ b →
      determineOutcome a b = (0, 0)) ∧
    (a = "rock" → b ≠ "rock" → b ≠ "scissors" →
      determineOutcome a b = (-1, 1)) ∧
    (a = "paper" → b ≠ "paper" → b ≠ "rock" →
      determineOutcome a b = (-1, 1)) ∧
    (a = "scissors" → b ≠ "scissors" → b ≠ "paper" →
      determineOutcome a b = (-1, 1)) := by
  refine ⟨?_, ?_, ?_, ?_, ?_⟩
  · intro h
    simp [determineOutcome, h]
  · intro hne hab
    push_neg at hne
    obtain ⟨h1, h2, h3⟩ := hne
    simp [determineOutcome, hab, h1, h2, h3]
  · intro ha hb1 hb2
    subst ha
    simp [determineOutcome, Ne.symm hb1, hb2]
  · intro ha hb1 hb2
    subst ha
    simp [determineOutcome, Ne.symm hb1, hb2]
  · intro ha hb1 hb2
    subst ha
    simp [determineOutcome, Ne.symm hb1, hb2]

/-- Closed witness for `determineOutcome_junk_input`:rock loses to
lizard. -/
theorem determineOutcome_junk_input_witness :
    determineOutcome "rock" "lizard" = (-1, 1) :=
  (determineOutcome_junk_input "rock" "lizard").2.2.1 rfl (by decide)
    (by decide)

/-! ### Channels, server construction and the matchmaking intake -/

/-- A Go buffered channel: a fixed capacity and the buffered elements. -/
structure GoChan (α : Type) where
  cap : Nat
  buf : List α
deriving DecidableEq

/-- Result of a send on a buffered channel with no ready receiver. -/
inductive ChanSendResult (α : Type) where
  | sent (c : GoChan α)
  | blocked
deriving DecidableEq

/-- Go channel send semantics (no ready receiver): the element is buffered
while there is room, otherwise the sender blocks. A Go channel send cannot
fail — there is no error outcome, which is why `ChanSendResult` has no
failure constructor. -/
def chanSend {α : Type} (c : GoChan α) (x : α) : ChanSendResult α :=
  if c.buf.length < c.cap then .sent ⟨c.cap, c.buf ++ [x]⟩ else .blocked

/-- A `net.Conn` handle, identified abstractly. -/
structure Conn where
  id : Nat
deriving DecidableEq

/-- `Server` from internal/rps/library.go (the `sync.WaitGroup` field is a
concurrency handle with no data content and is omitted). `os.Signal`
values are abstracted as `Nat`. -/
structure Server where
  Rounds : Int
  Port : String
  WaitingPlayers : GoChan Conn
  Quit : GoChan Nat

/-- `NewServer` from internal/rps/library.go:
`make(chan net.Conn, 100)` for the waiting players,
`make(chan os.Signal, 1)` for quit. -/
def NewServer (rounds : Int) (port : String) : Server :=
  { Rounds := rounds, Port := port, WaitingPlayers := ⟨100, []⟩,
    Quit := ⟨1, []⟩ }

/-- `rps.GameManager` as constructed by `NewGameManager` in
cmd/server/main.go (context, cancel function and wait group are
concurrency handles with no data content and are omitted). -/
structure GameManager where
  WaitingPlayers : GoChan Conn
  Rounds : Int

/-- `NewGameManager` from cmd/server/main.go:
`make(chan net.Conn, 100)`. -/
def NewGameManager (rounds : Int) : GameManager :=
  { WaitingPlayers := ⟨100, []⟩, Rounds := rounds }

/-- C6: `NewServer` and `NewGameManager` both create the waiting-players
intake with buffer capacity exactly 100, and a send on a full channel
blocks the enqueuer (channel sends have no failure outcome, so no
QueueFull-style error is possible). -/
theorem waitingPlayers_capacity (rounds : Int) (port : String) :
    (NewServer rounds port).WaitingPlayers.cap = 100 ∧
    (NewServer rounds port).WaitingPlayers.buf = [] ∧
    (NewGameManager rounds).WaitingPlayers.cap = 100 ∧
    (∀ (c : GoChan Conn) (x : Conn), ¬ c.buf.length < c.cap →
      chanSend c x = .blocked) := by
  refine ⟨rfl, rfl, rfl, ?_⟩
  intro c x h
  simp [chanSend, h]

/-- Closed witness for `waitingPlayers_capacity`: a zero-capacity channel
blocks immediately. -/
theorem waitingPlayers_capacity_witness :
    (NewServer 3 "8080").WaitingPlayers.cap = 100 ∧
      chanSend (⟨0, []⟩ : GoChan Conn) ⟨1⟩ = .blocked :=
  ⟨(waitingPlayers_capacity 3 "8080").1,
    (waitingPlayers_capacity 3 "8080").2.2.2 ⟨0, []⟩ ⟨1⟩ (by decide)⟩

/-! ### Server startup argument validation -/

/-- Digits of a candidate number, most significant first; `none` when the
list is empty or contains a non-digit (Go `strconv.ParseInt` syntax
error). -/
def parseDigits (cs : List Char) : Option Nat :=
  if cs = [] then none
  else cs.foldlM
    (fun acc c =>
      if '0' ≤ c ∧ c ≤ '9' then some (acc * 10 + (c.toNat - 48)) else none)
    0

/-- Go `strconv.Atoi` (= `ParseInt(s, 10, 0)` with 64-bit `int`): optional
single leading sign, then one or more decimal digits; `none` models a
non-nil error, which covers both syntax errors and out-of-range values
(`ErrRange`). -/
def goAtoi (s : String) : Option Int :=
  let signAndDigits : Bool × List Char :=
    match s.toList with
    | '+' :: t => (false, t)
    | '-' :: t => (true, t)
    | t => (false, t)
  match parseDigits signAndDigits.2 with
  | none => none
  | some n =>
    let v : Int := if signAndDigits.1 then -(n : Int) else (n : Int)
    if v < -(2 ^ 63) ∨ 2 ^ 63 - 1 < v then none else some v

/-- How `main` in cmd/server/main.go leaves argument validation:
`os.Exit(1)` after the usage message, `log.Fatalf` (which exits with a
non-zero status), or startup proceeding with the parsed configuration. -/
inductive Startup where
  | usageExit
  | fatalExit
  | proceed (rounds : Int) (port : String)
deriving DecidableEq

/-- Argument validation of `main` in cmd/server/main.go. `args` is
`os.Args`, program name included: fewer than 3 entries prints usage and
exits 1; a round count that does not parse or is `<= 0` is fatal;
otherwise startup proceeds with the rounds and port. -/
def serverMain (args : List String) : Startup :=
  if args.length < 3 then .usageExit
  else
    match goAtoi (args.getD 1 "") with
    | none => .fatalExit
    | some rounds =>
      if rounds ≤ 0 then .fatalExit
      else .proceed rounds (args.getD 2 "")

/-- C7: the server exits non-zero with a usage message when fewer than two
positional arguments are supplied, exits fatally when the round count does
not parse as an integer or is not positive, and proceeds past validation
with two arguments and a positive integer round count. -/
theorem serverMain_validation (args : List String) :
    (args.length < 3 → serverMain args = .usageExit) ∧
    (3 ≤ args.length → goAtoi (args.getD 1 "") = none →
      serverMain args = .fatalExit) ∧
    (∀ r : Int, 3 ≤ args.length → goAtoi (args.getD 1 "") = some r →
      r ≤ 0 → serverMain args = .fatalExit) ∧
    (∀ r : Int, 3 ≤ args.length → goAtoi (args.getD 1 "") = some r →
      0 < r → serverMain args = .proceed r (args.getD 2 "")) := by
  refine ⟨?_, ?_, ?_, ?_⟩
  · intro h
    simp [serverMain, h]
  · intro h hp
    unfold serverMain
    rw [if_neg (Nat.not_lt.2 h), hp]
  · intro r h hp hr
    unfold serverMain
    rw [if_neg (Nat.not_lt.2 h), hp]
    simp [hr]
  · intro r h hp hr
    unfold serverMain
    rw [if_neg (Nat.not_lt.2 h), hp]
    simp [show ¬ r ≤ 0 from not_le.2 hr]

/-- Closed witness for `serverMain_validation`: `server 3 8080`
proceeds. -/
theorem serverMain_validation_witness :
    serverMain ["server", "3", "8080"] = .proceed 3 "8080" :=
  (serverMain_validation ["server", "3", "8080"]).2.2.2 3 (by decide)
    (by decide) (by decide)

/-! ### Client choice prompt -/

/-- `goIsSpace` on `Char`. -/
def goIsSpaceChar (c : Char) : Bool := goIsSpace c.toNat

/-- `strings.TrimSpace` on a character list. -/
def trimSpaceChars (l : List Char) : List Char :=
  ((l.dropWhile goIsSpaceChar).reverse.dropWhile goIsSpaceChar).reverse

/-- Per-character `unicode.ToLower`, restricted to the mappings that can
influence comparison against the ASCII words `rock`/`paper`/`scissors`:
ASCII upper-case letters, plus the only code points outside ASCII whose
simple lower case lands in Latin-1 — `U+0130` LATIN CAPITAL LETTER I WITH
DOT ABOVE → `i` (Go case table delta −199), `U+212A` KELVIN SIGN → `k`,
and `U+212B` ANGSTROM SIGN → `å`. Every other simple case mapping stays
within non-ASCII code points, so modelling it as the identity changes no
comparison the client performs. -/
def goToLowerChar (c : Char) : Char :=
  if 'A' ≤ c ∧ c ≤ 'Z' then Char.ofNat (c.toNat + 32)
  else if c.toNat = 0x0130 then 'i'
  else if c.toNat = 0x212A then 'k'
  else if c.toNat = 0x212B then Char.ofNat 0xE5
  else c

/-- `strings.TrimSpace(strings.ToLower(choice))` from `promptChoice` in
cmd/client/main.go. -/
def normalizeChoice (line : List Char) : List Char :=
  trimSpaceChars (line.map goToLowerChar)

/-- `promptChoice` from cmd/client/main.go, over the sequence of lines the
user will type: each line is lower-cased and trimmed; the first one equal
to `rock`, `paper` or `scissors` is returned, any other line only causes a
re-prompt (the function reads stdin and prints prompts but performs no
connection write — `SendMessage` is called by `gameLoop`, only after
`promptChoice` returns). `none` models the read error when input is
exhausted. -/
def promptChoice : List (List Char) → Option (List Char)
  | [] => none
  | line :: rest =>
    if normalizeChoice line = "rock".toList ∨
        normalizeChoice line = "paper".toList ∨
        normalizeChoice line = "scissors".toList then
      some (normalizeChoice line)
    else promptChoice rest

/-- C8: `promptChoice` only ever returns one of the exact strings `rock`,
`paper`, `scissors` (lower-cased, trimmed), and a line that does not
normalize to one of them is skipped — the loop just moves on to the next
input line, sending nothing. -/
theorem promptChoice_valid :
    (∀ lines choice, promptChoice lines = some choice →
      choice = "rock".toList ∨ choice = "paper".toList ∨
        choice = "scissors".toList) ∧
    (∀ line rest,
      ¬(normalizeChoice line = "rock".toList ∨
          normalizeChoice line = "paper".toList ∨
          normalizeChoice line = "scissors".toList) →
      promptChoice (line :: rest) = promptChoice rest) := by
  constructor
  · intro lines
    induction lines with
    | nil =>
      intro choice h
      simp [promptChoice] at h
    | cons l rest ih =>
      intro choice h
      by_cases hv : normalizeChoice l = "rock".toList ∨
          normalizeChoice l = "paper".toList ∨
          normalizeChoice l = "scissors".toList
      · rw [promptChoice, if_pos hv] at h
        obtain rfl : normalizeChoice l = choice := Option.some.inj h
        exact hv
      · rw [promptChoice, if_neg hv] at h
        exact ih choice h
  · intro line rest h
    rw [promptChoice, if_neg h]

/-- Closed witness for `promptChoice_valid`: the line `bird` is skipped,
and the line ` SCİSSORS ` (with `U+0130`) is accepted as `scissors`. -/
theorem promptChoice_valid_witness :
    promptChoice [" bird ".toList, " SCİSSORS ".toList] =
      promptChoice [" SCİSSORS ".toList] ∧
    promptChoice [" SCİSSORS ".toList] = some "scissors".toList ∧
    ("scissors".toList = "rock".toList ∨
      "scissors".toList = "paper".toList ∨
      "scissors".toList = "scissors".toList) :=
  ⟨promptChoice_valid.2 " bird ".toList [" SCİSSORS ".toList] (by decide),
    by decide,
    promptChoice_valid.1 [" SCİSSORS ".toList] "scissors".toList
      (by decide)⟩

end RPS
